import Mathlib


/-!
Verification of the NotifyMe core (polling scheduler, source monitors,
notification store, delivery dedup guard) against its natural-language
specification.  Go sources are shallowly embedded: methods become pure
functions, struct state becomes explicit parameters and results, the
network becomes an explicit response oracle passed to each fetch
operation, and Go maps guarded by mutexes become association lists
threaded through the functions.  Go `int`/`int64` values are modelled as
`Int` (no arithmetic in the embedded code can overflow a 64-bit range on
the inputs considered, and none of the embedded operations rely on
wrap-around).
-/


/-! ## Definitions -/

/-- `types.Notification` (pkg/types/notification.go): one notification
record with identifier, title, content summary, link, source tag and
Unix timestamp. -/
structure Notification where
  ID : String
  Title : String
  Content : String
  Link : String
  Source : String
  Time : Int
deriving DecidableEq, Repr

/-- The identifiers of a list of notifications, in order. -/
def notifIDs (l : List Notification) : List String :=
  l.map Notification.ID

/-- In-batch deduplication pass of `Scheduler.addNotifications`
(scheduler.go, the `seenIDs` map): keep the first occurrence of each
identifier, skipping later repeats.  `seen` is the set of identifiers
already encountered. -/
def dedupBatch (seen : List String) : List Notification → List Notification
  | [] => []
  | n :: rest =>
      if n.ID ∈ seen then dedupBatch seen rest
      else n :: dedupBatch (n.ID :: seen) rest

/-- The `existingNotifications` local of `Scheduler.addNotifications`
(scheduler.go lines 236-250): batch entries (after in-batch dedup) whose
identifier is already stored, in batch order. -/
def movedNotifs (state batch : List Notification) : List Notification :=
  (dedupBatch [] batch).filter (fun n => n.ID ∈ notifIDs state)

/-- The `newNotifications` local of `Scheduler.addNotifications`
(scheduler.go lines 236-250): batch entries (after in-batch dedup) whose
identifier is not yet stored, in batch order. -/
def freshNotifs (state batch : List Notification) : List Notification :=
  (dedupBatch [] batch).filter (fun n => n.ID ∉ notifIDs state)

/-- `Scheduler.addNotifications` (scheduler.go lines 218-302), as a pure
function from the current `recentNotifications` list and the incoming
batch to the new list.  Mirrors the source: an empty batch returns
immediately; the batch is deduplicated by identifier within itself;
batch entries whose identifier is already stored form
`existingNotifications` (to be moved, `movedNotifs`), the rest form
`newNotifications` (`freshNotifs`); stored entries whose identifier is
being moved are filtered out (the source skips this filter when nothing
is moved); the moved entries followed by the new entries are prepended;
finally the list is truncated to 50 entries. -/
def addNotifications (state batch : List Notification) : List Notification :=
  if batch.isEmpty then state
  else if (movedNotifs state batch).isEmpty && (freshNotifs state batch).isEmpty then state
  else
    ((movedNotifs state batch ++ freshNotifs state batch) ++
      (if (movedNotifs state batch).isEmpty then state
       else state.filter (fun n => n.ID ∉ notifIDs (movedNotifs state batch)))).take 50

/-- `Scheduler.GetRecentNotifications` (scheduler.go lines 305-313):
returns a copy of the stored list. -/
def getRecentNotifications (state : List Notification) : List Notification :=
  state

/-- Modelled from the spec's words for claim C2: "all moved and
newly-added notifications are inserted together at the front of the
list preserving the batch's order".  The whole deduplicated batch is
prepended in batch order (moved and new interleaved as in the batch). -/
def addNotificationsSpecC2 (state batch : List Notification) : List Notification :=
  if batch.isEmpty then state
  else
    (dedupBatch [] batch ++
      state.filter (fun n => n.ID ∉ notifIDs (dedupBatch [] batch))).take 50

/-- Concrete notification used in counterexamples and witnesses. -/
def notifA : Notification := ⟨"a", "ta", "ca", "la", "ld246", 1⟩

/-- Concrete notification used in counterexamples and witnesses. -/
def notifB : Notification := ⟨"b", "tb", "cb", "lb", "github", 2⟩

/-- Result of one `WindowsNotifier.Notify` call: the `notifiedIDs` set
after the call, the identifiers on which the external sink
(`toast.Notification.Push`) was invoked during the call, and whether the
call returned without error. -/
structure NotifyResult where
  state : List String
  calls : List String
  ok : Bool
deriving Repr

/-- `WindowsNotifier.Notify` (windows.go lines 67-122) with the external
sink abstracted as `push : Notification → Bool` (`true` = `Push`
succeeded).  If the identifier is already in `notifiedIDs` the sink is
not invoked and the call succeeds; otherwise the sink is invoked, and
the identifier is recorded only when the sink succeeded. -/
def notify (push : Notification → Bool) (s : List String) (n : Notification) :
    NotifyResult :=
  if n.ID ∈ s then ⟨s, [], true⟩
  else if push n then ⟨n.ID :: s, [n.ID], true⟩
  else ⟨s, [n.ID], false⟩

/-- `WindowsNotifier.NotifyBatch` (windows.go lines 125-133): notify each
batch entry in order; a failed `Notify` is logged and the loop continues.
Returns the final `notifiedIDs` set and all sink invocations in order. -/
def notifyBatch (push : Notification → Bool) (s : List String) :
    List Notification → List String × List String
  | [] => (s, [])
  | n :: rest =>
      let r := notify push s n
      let rec' := notifyBatch push r.state rest
      (rec'.1, r.calls ++ rec'.2)

/-- One element of the JSON array returned by `GET /notifications`,
with the fields the source decodes (github.go lines 501-515; the unused
`reason`/`url` fields are dropped).  `updatedAt` is the item's
`updated_at` instant as a Unix timestamp (`UpdatedAt.Unix()`). -/
structure GhItem where
  id : String
  repositoryFullName : String
  subjectTitle : String
  subjectType : String
  subjectURL : String
  updatedAt : Int
  htmlURL : String
deriving DecidableEq, Repr

/-- `monitor.truncateString` (ld246.go lines 1440-1445): truncate to
`maxLen` and append an ellipsis.  The Go original slices bytes; the
model slices characters, which coincides on the ASCII data handled
here. -/
def truncateString (s : String) (maxLen : Nat) : String :=
  if s.length ≤ maxLen then s else (s.take maxLen) ++ "..."

/-- `GitHubMonitor.convertGitHubAPIToHTML` (github.go lines 564-597).
The `Release` branch performs a second network request
(`convertReleaseAPIToHTML`); that sub-request is abstracted as the
oracle `releaseLink apiURL repoFullName` giving the link that the
sub-request resolves to (`""` on any of its failure paths, exactly the
error returns of the source).  The Go original tests byte prefixes; the
model tests character prefixes, which coincide on ASCII URLs. -/
def convertGitHubAPIToHTML (releaseLink : String → String → String)
    (apiURL subjectType repoFullName : String) : String :=
  if apiURL = "" then ""
  else if subjectType = "Release" then releaseLink apiURL repoFullName
  else if 22 ≤ apiURL.length && apiURL.take 22 = "https://api.github.com" then
    let path := apiURL.drop 22
    let htmlURL :=
      if 7 ≤ path.length && path.take 7 = "/repos/" then
        "https://github.com/" ++ path.drop 7
      else "https://github.com" ++ path
    htmlURL.replace "/pulls/" "/pull/"
  else apiURL

/-- The Notification built from one GitHub item (github.go lines
524-557): title `[repo] subject`, content truncated to 100, link
converted from the API URL with fallback to the thread HTML URL. -/
def ghNotificationOf (releaseLink : String → String → String)
    (item : GhItem) : Notification :=
  { ID := "github_" ++ item.id
    Title := "[" ++ item.repositoryFullName ++ "] " ++ item.subjectTitle
    Content := truncateString item.subjectTitle 100
    Link :=
      (if convertGitHubAPIToHTML releaseLink item.subjectURL item.subjectType
            item.repositoryFullName = ""
       then item.htmlURL
       else convertGitHubAPIToHTML releaseLink item.subjectURL item.subjectType
              item.repositoryFullName)
    Source := "github"
    Time := item.updatedAt }

/-- The response observed by one `FetchNotificationsSince` call:
HTTP status, parsed `Last-Modified` header (`none` when the header is
absent or unparseable), whether reading the body succeeded
(`io.ReadAll`), and the result of decoding the body (`none` when
`json.Unmarshal` fails). -/
structure GhResp where
  status : Nat
  lastModified : Option Int
  bodyReadOk : Bool
  items : Option (List GhItem)
deriving DecidableEq, Repr

/-- The error classes of `FetchNotificationsSince`, one per `return
nil, err` site. -/
inductive GhError where
  | noToken
  | transport
  | bodyRead
  | badStatus (code : Nat)
  | decode
deriving DecidableEq, Repr

/-- Outcome of one `FetchNotificationsSince` call: the top-level
endpoint requests issued, the monitor's `lastModified` cursor after the
call, and the returned batch or error. -/
structure GhFetchOutcome where
  requests : List String
  cursor : Option Int
  result : Except GhError (List Notification)

/-- The notifications endpoint (query string elided: it carries only
the `since` parameter derived from the cursor, which the response
oracle answers). -/
def ghNotificationsURL : String := "https://api.github.com/notifications"

/-- `GitHubMonitor.FetchNotificationsSince` (github.go lines 396-561)
with a zero `since` argument, the call the scheduler makes through
`FetchNotifications`.  `cursor` is the stored `lastModified`; `net` is
the network's answer (`none` = transport error).  Mirrors the source
order: empty token fails before any request; 304 returns an empty batch
after updating the cursor from the response header when present; a body
read failure or a non-200 status fails with the cursor untouched; on
200 the cursor is updated from the header before the body is decoded,
so a decode failure still keeps the new cursor. -/
def fetchNotificationsSince (token : String) (cursor : Option Int)
    (net : Option GhResp) (releaseLink : String → String → String) :
    GhFetchOutcome :=
  if token = "" then ⟨[], cursor, .error .noToken⟩
  else
    match net with
    | none => ⟨[ghNotificationsURL], cursor, .error .transport⟩
    | some resp =>
        if resp.status = 304 then
          ⟨[ghNotificationsURL],
            (match resp.lastModified with | some t => some t | none => cursor),
            .ok []⟩
        else if !resp.bodyReadOk then
          ⟨[ghNotificationsURL], cursor, .error .bodyRead⟩
        else if resp.status ≠ 200 then
          ⟨[ghNotificationsURL], cursor, .error (.badStatus resp.status)⟩
        else
          match resp.items with
          | none =>
              ⟨[ghNotificationsURL],
                (match resp.lastModified with | some t => some t | none => cursor),
                .error .decode⟩
          | some items =>
              ⟨[ghNotificationsURL],
                (match resp.lastModified with | some t => some t | none => cursor),
                .ok (items.map (ghNotificationOf releaseLink))⟩

/-- A 200 response carrying `Last-Modified` 200 whose body fails to
decode: the input refuting C4's "never advanced on error". -/
def ghRespDecodeErr : GhResp := ⟨200, some 200, true, none⟩

/-- Decimal digits of `n`, most significant first; `fuel` bounds the
recursion depth (any `fuel > n` is exact). -/
def toDecDigitsAux : Nat → Nat → List Nat
  | 0, _ => []
  | fuel + 1, n => if n < 10 then [n] else toDecDigitsAux fuel (n / 10) ++ [n % 10]

/-- Decimal digits of `n`, most significant first. -/
def toDecDigits (n : Nat) : List Nat := toDecDigitsAux (n + 1) n

/-- Reconstruct a number from its decimal digits. -/
def ofDecDigits (l : List Nat) : Nat := l.foldl (fun a d => a * 10 + d) 0

/-- The decimal rendering of a natural number, as produced by the `%d`
verb of `fmt.Sprintf` for nonnegative values. -/
def natDecimal (n : Nat) : String := String.mk ((toDecDigits n).map Nat.digitChar)

/-- The decimal rendering of a Go `int`/`int64` under `%d`. -/
def intDecimal (i : Int) : String :=
  if i < 0 then "-" ++ natDecimal (-i).toNat else natDecimal i.toNat

/-- The scan of one `stripHTML` loop iteration (ld246.go lines
1452-1463): `start` is the last `<` seen so far; the first `>` with a
pending `<` yields the removal range. -/
def findTagAux : List Char → Nat → Option Nat → Option (Nat × Nat)
  | [], _, _ => none
  | c :: rest, i, start =>
      if c = '<' then findTagAux rest (i + 1) (some i)
      else if c = '>' then
        match start with
        | some s => some (s, i)
        | none => findTagAux rest (i + 1) none
      else findTagAux rest (i + 1) start

/-- The tag-removal loop of `stripHTML`: remove the range found by one
scan and rescan, `fuel` bounding the iteration count (each iteration
removes at least one character, so `fuel = length` is exact). -/
def stripHTMLAux : Nat → List Char → List Char
  | 0, cs => cs
  | fuel + 1, cs =>
      match findTagAux cs 0 none with
      | none => cs
      | some (s, e) =>
          if s < e then stripHTMLAux fuel (cs.take s ++ cs.drop (e + 1)) else cs

/-- Drop `pat` from the front of `cs` when it is a prefix. -/
def dropPat : List Char → List Char → Option (List Char)
  | [], cs => some cs
  | _ :: _, [] => none
  | p :: ps, c :: cs => if p = c then dropPat ps cs else none

/-- `strings.ReplaceAll` over character lists, `fuel` bounding the scan
(each step consumes at least one input character). -/
def replaceAux : Nat → List Char → List Char → List Char → List Char
  | 0, _, _, cs => cs
  | fuel + 1, pat, rep, cs =>
      match cs with
      | [] => []
      | c :: rest =>
          match dropPat pat cs with
          | some remainder =>
              if pat.isEmpty then c :: replaceAux fuel pat rep rest
              else rep ++ replaceAux fuel pat rep remainder
          | none => c :: replaceAux fuel pat rep rest

/-- `strings.ReplaceAll s pat rep` (character-level model). -/
def replaceAll (s pat rep : String) : String :=
  String.mk (replaceAux s.data.length pat.data rep.data s.data)

/-- The white-space predicate of `strings.TrimSpace` restricted to the
ASCII space characters (the data handled here is HTML-stripped text). -/
def goIsSpace (c : Char) : Bool :=
  c = ' ' || c = '\t' || c = '\n' || c = '\r'

/-- `strings.TrimSpace` (character-level model). -/
def trimSpace (s : String) : String :=
  String.mk (((s.data.dropWhile goIsSpace).reverse.dropWhile goIsSpace).reverse)

/-- `monitor.stripHTML` (ld246.go lines 1448-1478): remove `<...>` tag
ranges, decode the six HTML entities in source order, and trim
surrounding white space. -/
def stripHTML (html : String) : String :=
  let cs := String.mk (stripHTMLAux html.data.length html.data)
  let cs := replaceAll cs "&lt;" "<"
  let cs := replaceAll cs "&gt;" ">"
  let cs := replaceAll cs "&amp;" "&"
  let cs := replaceAll cs "&quot;" "\""
  let cs := replaceAll cs "&#39;" "'"
  let cs := replaceAll cs "&nbsp;" " "
  trimSpace cs

/-- `monitor.articleState` (ld246.go lines 680-683): last known update
time and comment count of one article. -/
structure ArticleState where
  lastUpdateTime : Int
  commentCount : Int
deriving DecidableEq, Repr

/-- One article of the `latest/reply` listing, with the fields the
source decodes (ld246.go lines 937-945; the unused author name is
dropped). -/
structure Ld246Article where
  oId : String
  articleTitle : String
  articlePreviewContent : String
  articleCreateTime : Int
  articleUpdateTime : Int
  articleCommentCount : Int
deriving DecidableEq, Repr

/-- The `seenArticles` map (article ID → state), as an association
list; Go map iteration order never influences the results proved
below. -/
def SeenArticles : Type := List (String × ArticleState)

/-- Go map lookup on the association list. -/
def lookupAS : SeenArticles → String → Option ArticleState
  | [], _ => none
  | (k', v) :: rest, k => if k' = k then some v else lookupAS rest k

/-- Go map insertion (overwrite) on the association list. -/
def insertAS : SeenArticles → String → ArticleState → SeenArticles
  | [], k, v => [(k, v)]
  | (k', v') :: rest, k, v =>
      if k' = k then (k, v) :: rest else (k', v') :: insertAS rest k v

/-- The `timeValue` local (ld246.go lines 976-979): the update time,
falling back to the creation time when zero. -/
def articleTimeValue (a : Ld246Article) : Int :=
  if a.articleUpdateTime = 0 then a.articleCreateTime else a.articleUpdateTime

/-- The state recorded for an article after a fetch (ld246.go lines
1043-1046 and 1068-1071 record the same value). -/
def mkArticleState (a : Ld246Article) : ArticleState :=
  ⟨articleTimeValue a, a.articleCommentCount⟩

/-- The `isNew` flag (ld246.go lines 981-1005): unseen article, or seen
with a later update time or a higher comment count. -/
def articleChanged (seen : SeenArticles) (a : Ld246Article) : Bool :=
  match lookupAS seen a.oId with
  | none => true
  | some st =>
      articleTimeValue a > st.lastUpdateTime
        || a.articleCommentCount > st.commentCount

/-- The `hasNewReply` flag (ld246.go line 1020): seen before and
changed. -/
def articleHasNewReply (seen : SeenArticles) (a : Ld246Article) : Bool :=
  match lookupAS seen a.oId with
  | none => false
  | some st =>
      articleTimeValue a > st.lastUpdateTime
        || a.articleCommentCount > st.commentCount

/-- The community site base URL (ld246.go line 701). -/
def ld246BaseURL : String := "https://ld246.com"

/-- The notification built for a changed article (ld246.go lines
1012-1039): an updated article gets a `有新回帖: ` title marker and an
identifier suffixed with the new time value; a new article's identifier
is the bare article identifier. -/
def articleNotificationOf (seen : SeenArticles) (a : Ld246Article) : Notification :=
  { ID :=
      (if articleHasNewReply seen a then
        "ld246_article_" ++ a.oId ++ "_" ++ intDecimal (articleTimeValue a)
      else "ld246_article_" ++ a.oId)
    Title :=
      (if articleHasNewReply seen a then "有新回帖: " ++ a.articleTitle
       else a.articleTitle)
    Content :=
      (if truncateString (stripHTML a.articlePreviewContent) 100 = "" then
        a.articleTitle
      else truncateString (stripHTML a.articlePreviewContent) 100)
    Link := ld246BaseURL ++ "/article/" ++ a.oId
    Source := "ld246"
    Time := articleTimeValue a }

/-- The `updatedArticles` map built during the notification pass
(ld246.go lines 968 and 1042-1046): the recorded states of the changed
articles. -/
def updatedArticlesMap (seen : SeenArticles) (articles : List Ld246Article) :
    SeenArticles :=
  articles.foldl
    (fun m a => if articleChanged seen a then insertAS m a.oId (mkArticleState a) else m)
    []

/-- The state-rewrite phase of `FetchRecentReplies` (ld246.go lines
1050-1084): merge the changed states, add entries for the unchanged
listed articles, then purge every identifier absent from the current
listing. -/
def reconcileSeen (seen : SeenArticles) (articles : List Ld246Article) :
    SeenArticles :=
  let u := updatedArticlesMap seen articles
  let afterU := u.foldl (fun m p => insertAS m p.1 p.2) seen
  let afterAll := articles.foldl
    (fun m a =>
      if (lookupAS u a.oId).isSome then m else insertAS m a.oId (mkArticleState a))
    afterU
  afterAll.filter (fun p => p.1 ∈ articles.map Ld246Article.oId)

/-- `Ld246Monitor.FetchRecentReplies` (ld246.go lines 888-1095) after a
successfully decoded `code = 0` response: the notifications for the
changed articles (in listing order) and the rewritten seen-state. -/
def fetchRecentRepliesCore (seen : SeenArticles) (articles : List Ld246Article) :
    List Notification × SeenArticles :=
  (articles.filterMap
    (fun a => if articleChanged seen a then some (articleNotificationOf seen a) else none),
   reconcileSeen seen articles)

/-- The listing entry of article `X` at update time 100 with 2
comments. -/
def articleX1 : Ld246Article := ⟨"X", "T", "", 0, 100, 2⟩

/-- The same article after one more reply that did not change the
update time: update time still 100, 3 comments. -/
def articleX2 : Ld246Article := ⟨"X", "T", "", 0, 100, 3⟩

/-- Seen-state tracking article `X` at update time 100 with 1
comment. -/
def seenX0 : SeenArticles := [("X", ⟨100, 1⟩)]

/-- One message of a `notifications/{type}` response, with the fields
the source decodes (ld246.go lines 1313-1324). -/
structure LdMessage where
  id : String
  msg : String
  dataType : Int
  dataId : String
  createdTime : Int
  hasRead : Bool
deriving DecidableEq, Repr

/-- The unread-count response fields the source's control flow reads
(ld246.go lines 1145-1163; the remaining decoded counts are only
logged). -/
structure Ld246CountData where
  unreadNotificationCnt : Int
  unreadCommentedNotificationCnt : Int
  unreadAtNotificationCnt : Int
  unreadReplyNotificationCnt : Int
  unreadChatNotificationCnt : Int
  unreadFollowingNotificationCnt : Int
deriving DecidableEq, Repr

/-- Outcome of one ld246 HTTP request, as the source distinguishes
them: transport failure, non-200 status, body-read failure, JSON decode
failure, or a decoded body carrying the API `code`, `msg` and data. -/
inductive ApiResp (α : Type) where
  | transport
  | status (code : Nat)
  | bodyReadErr
  | decodeErr
  | ok (code : Int) (msg : String) (data : α)
deriving Repr

/-- The error classes of the ld246 fetches, one per `return nil, err`
site (401 and 403 are singled out by the source). -/
inductive LdFetchError where
  | transport
  | needLogin
  | forbidden
  | badStatus (code : Nat)
  | bodyRead
  | decode
  | api (msg : String)
deriving DecidableEq, Repr

/-- The status-code dispatch shared by the ld246 fetches (401 → login
required, 403 → forbidden, other non-200 → status error). -/
def ld246StatusError (code : Nat) : LdFetchError :=
  if code = 401 then .needLogin
  else if code = 403 then .forbidden
  else .badStatus code

/-- The composite seen-set key `{type}_{messageID}` (ld246.go line
1359). -/
def ldMessageKey (typ : String) (m : LdMessage) : String :=
  typ ++ "_" ++ m.id

/-- The per-type notification title (ld246.go lines 1374-1385). -/
def messageTitleOf (typ : String) : String :=
  if typ = "commented" then "收到回帖"
  else if typ = "at" then "提及我的"
  else if typ = "reply" then "收到回复"
  else if typ = "following" then "我关注的"
  else if typ = "chat" then "聊天消息"
  else "新消息"

/-- The data-type-to-URL mapping (ld246.go lines 1387-1398). -/
def messageLinkOf (m : LdMessage) : String :=
  if m.dataId ≠ "" then
    if m.dataType = 3 || m.dataType = 33 || m.dataType = 34 || m.dataType = 35 then
      ld246BaseURL ++ "/article/" ++ m.dataId
    else if m.dataType = 4 || m.dataType = 9 || m.dataType = 15 || m.dataType = 16
        || m.dataType = 20 || m.dataType = 22 then
      ld246BaseURL ++ "/article/" ++ m.dataId
    else ld246BaseURL
  else ld246BaseURL

/-- The Notification built from one unread message (ld246.go lines
1400-1407). -/
def ldMessageNotificationOf (typ : String) (m : LdMessage) : Notification :=
  { ID := "ld246_" ++ typ ++ "_" ++ m.id
    Title := messageTitleOf typ
    Content := truncateString m.msg 100
    Link := messageLinkOf m
    Source := "ld246"
    Time := m.createdTime }

/-- The reconciliation pass of `fetchNotificationsByType` (ld246.go
lines 1337-1423) on a decoded message list: skip messages the server
already marked read and messages whose composite key is in the seen-set
snapshot; the kept messages become notifications and their keys extend
the seen-set (flushed only when something was new). -/
def fetchNotificationsByTypeCore (typ : String) (seen : List String)
    (msgs : List LdMessage) : List Notification × List String :=
  let newMsgs := msgs.filter (fun m => !m.hasRead && ldMessageKey typ m ∉ seen)
  (newMsgs.map (ldMessageNotificationOf typ),
   if newMsgs.isEmpty then seen else seen ++ newMsgs.map (ldMessageKey typ))

/-- `Ld246Monitor.fetchNotificationsByType` (ld246.go lines 1272-1437)
with the request's response supplied by the oracle. -/
def fetchNotificationsByType (typ : String) (seen : List String)
    (resp : ApiResp (List LdMessage)) :
    Except LdFetchError (List Notification × List String) :=
  match resp with
  | .transport => .error .transport
  | .status c => .error (ld246StatusError c)
  | .bodyReadErr => .error .bodyRead
  | .decodeErr => .error .decode
  | .ok code msg data =>
      if code ≠ 0 then .error (.api msg)
      else .ok (fetchNotificationsByTypeCore typ seen data)

/-- The synthetic chat notification (ld246.go lines 1240-1258): the
identifier and title embed the unread chat count itself; the timestamp
is the wall clock in milliseconds. -/
def chatNotificationOf (cnt : Int) (nowMilli : Int) : Notification :=
  { ID := "ld246_chat_" ++ intDecimal cnt
    Title := "聊天消息 (" ++ intDecimal cnt ++ ")"
    Content := "您有 " ++ intDecimal cnt ++ " 条未读聊天消息"
    Link := "https://ld246.com/chats"
    Source := "ld246"
    Time := nowMilli }

/-- The `latest/reply` endpoint (ld246.go line 890). -/
def ld246LatestReplyURL : String :=
  ld246BaseURL ++ "/api/v2/articles/latest/reply?p=1"

/-- The unread-count endpoint (ld246.go line 1102). -/
def ld246UnreadCountURL : String :=
  ld246BaseURL ++ "/api/v2/notifications/unread/count"

/-- The per-type message endpoint (ld246.go line 1273). -/
def ld246TypeURL (typ : String) : String :=
  ld246BaseURL ++ "/api/v2/notifications/" ++ typ ++ "?p=1"

/-- The network's answers for one `FetchUnreadMessages` call: the
unread-count response, each per-type response, and the wall clock
(`time.Now().UnixMilli()`). -/
structure Ld246UnreadNet where
  countResp : ApiResp Ld246CountData
  typeResp : String → ApiResp (List LdMessage)
  nowMilli : Int

/-- One category block of `FetchUnreadMessages` (ld246.go lines
1192-1238): when the category's unread count is positive, fetch its
messages; a failure is logged and skipped (notifications and seen-set
untouched); on success the new notifications are appended and the
seen-set is replaced.  The accumulator is (requests, notifications,
seen-set). -/
def processCategory (net : Ld246UnreadNet) (typ : String) (cnt : Int)
    (acc : List String × List Notification × List String) :
    List String × List Notification × List String :=
  if cnt > 0 then
    match fetchNotificationsByType typ acc.2.2 (net.typeResp typ) with
    | .error _ => (acc.1 ++ [ld246TypeURL typ], acc.2.1, acc.2.2)
    | .ok r => (acc.1 ++ [ld246TypeURL typ], acc.2.1 ++ r.1, r.2)
  else acc

/-- `Ld246Monitor.FetchUnreadMessages` (ld246.go lines 1098-1269).  The
first component lists the URLs actually requested, in order: the count
request is attempted unconditionally — also on an empty token, which
merely omits the `Authorization` header (ld246.go lines 1108-1113).  A
zero aggregate count short-circuits; otherwise the four detail
categories are processed in source order and the chat category appends
its synthetic notification when its count is positive. -/
def fetchUnreadMessages (token : String) (seen : List String)
    (net : Ld246UnreadNet) :
    List String × Except LdFetchError (List Notification × List String) :=
  match net.countResp with
  | .transport => ([ld246UnreadCountURL], .error .transport)
  | .status c => ([ld246UnreadCountURL], .error (ld246StatusError c))
  | .bodyReadErr => ([ld246UnreadCountURL], .error .bodyRead)
  | .decodeErr => ([ld246UnreadCountURL], .error .decode)
  | .ok code msg data =>
      if code ≠ 0 then ([ld246UnreadCountURL], .error (.api msg))
      else if data.unreadNotificationCnt = 0 then
        ([ld246UnreadCountURL], .ok ([], seen))
      else
        let acc0 := ([ld246UnreadCountURL], ([] : List Notification), seen)
        let acc1 := processCategory net "commented"
          data.unreadCommentedNotificationCnt acc0
        let acc2 := processCategory net "at" data.unreadAtNotificationCnt acc1
        let acc3 := processCategory net "reply" data.unreadReplyNotificationCnt acc2
        let acc4 := processCategory net "following"
          data.unreadFollowingNotificationCnt acc3
        let notifs :=
          if data.unreadChatNotificationCnt > 0 then
            acc4.2.1 ++ [chatNotificationOf data.unreadChatNotificationCnt net.nowMilli]
          else acc4.2.1
        (acc4.1, .ok (notifs, acc4.2.2))

/-- `Ld246Monitor.FetchRecentReplies` (ld246.go lines 888-1095) with
the request's response supplied by the oracle.  The first component
lists the URLs requested: the listing request is attempted
unconditionally — also on an empty token, which merely omits the
`Authorization` header (ld246.go lines 897-900). -/
def fetchRecentReplies (token : String) (seen : SeenArticles)
    (resp : ApiResp (List Ld246Article)) :
    List String × Except LdFetchError (List Notification × SeenArticles) :=
  match resp with
  | .transport => ([ld246LatestReplyURL], .error .transport)
  | .status c => ([ld246LatestReplyURL], .error (ld246StatusError c))
  | .bodyReadErr => ([ld246LatestReplyURL], .error .bodyRead)
  | .decodeErr => ([ld246LatestReplyURL], .error .decode)
  | .ok code msg articles =>
      if code ≠ 0 then ([ld246LatestReplyURL], .error (.api msg))
      else ([ld246LatestReplyURL], .ok (fetchRecentRepliesCore seen articles))

/-- A network giving transport errors everywhere. -/
def ldNetDown : Ld246UnreadNet := ⟨.transport, fun _ => .transport, 0⟩

/-- The JSON documents exchanged with `notifications.json`
(`json.MarshalIndent` / `json.Unmarshal`; whitespace and field order
are irrelevant to the decoded value and elided). -/
inductive Json where
  | str (s : String)
  | num (n : Int)
  | arr (items : List Json)
  | obj (fields : List (String × Json))

/-- Field lookup in a JSON object. -/
def jLookup : List (String × Json) → String → Option Json
  | [], _ => none
  | (k', v) :: rest, k => if k' = k then some v else jLookup rest k

/-- Decode a string field as `json.Unmarshal` does: a missing field
leaves the Go zero value `""`; a present field of the wrong kind is a
decode error. -/
def jGetStr (fields : List (String × Json)) (k : String) : Option String :=
  match jLookup fields k with
  | none => some ""
  | some (.str s) => some s
  | some _ => none

/-- Decode an integer field (zero value `0` when missing). -/
def jGetInt (fields : List (String × Json)) (k : String) : Option Int :=
  match jLookup fields k with
  | none => some 0
  | some (.num n) => some n
  | some _ => none

/-- Decode one persisted Notification record. -/
def decodeNotification (j : Json) : Option Notification :=
  match j with
  | .obj fields => do
      let id ← jGetStr fields "id"
      let title ← jGetStr fields "title"
      let content ← jGetStr fields "content"
      let link ← jGetStr fields "link"
      let source ← jGetStr fields "source"
      let time ← jGetInt fields "time"
      pure ⟨id, title, content, link, source, time⟩
  | _ => none

/-- Encode one Notification record with its JSON field tags
(pkg/types/notification.go). -/
def encodeNotification (n : Notification) : Json :=
  .obj [("id", .str n.ID), ("title", .str n.Title), ("content", .str n.Content),
        ("link", .str n.Link), ("source", .str n.Source), ("time", .num n.Time)]

/-- Decode a list of records, failing if any record fails. -/
def decodeAll : List Json → Option (List Notification)
  | [] => some []
  | j :: rest =>
      match decodeNotification j, decodeAll rest with
      | some n, some l => some (n :: l)
      | _, _ => none

/-- Decode the persisted array of records. -/
def decodeNotificationList (j : Json) : Option (List Notification) :=
  match j with
  | .arr items => decodeAll items
  | _ => none

/-- `Scheduler.saveNotificationsWithData` (scheduler.go lines 366-388):
the document written to `notifications.json` is the full list,
serialized in order. -/
def saveNotificationsWithData (l : List Notification) : Json :=
  .arr (l.map encodeNotification)

/-- The parse-and-truncate step of `Scheduler.loadNotifications`
(scheduler.go lines 406-415): decode the array and keep the first 50
records; no deduplication is applied. -/
def loadNotifications (file : Json) : Option (List Notification) :=
  (decodeNotificationList file).map (fun l => l.take 50)

/-- `Scheduler.loadNotifications` (scheduler.go lines 391-424) acting
on the store: a missing file or a parse error leaves
`recentNotifications` unchanged (empty at startup); otherwise the
truncated decoded list replaces it. -/
def loadIntoStore (prev : List Notification) (file : Option Json) :
    List Notification :=
  match file with
  | none => prev
  | some j =>
      match loadNotifications j with
      | none => prev
      | some l => l

/-! ## Theorems -/

theorem notifIDs_append (l₁ l₂ : List Notification) :
    notifIDs (l₁ ++ l₂) = notifIDs l₁ ++ notifIDs l₂ := by
  simp [notifIDs]

theorem notifIDs_filter (l : List Notification) (p : Notification → Bool)
    (q : String → Bool) (hpq : ∀ n, p n = q n.ID) :
    notifIDs (l.filter p) = (notifIDs l).filter q := by
  induction l with
  | nil => rfl
  | cons n rest ih =>
      by_cases h : q n.ID = true
      · simp [notifIDs, List.filter, hpq, h] at ih ⊢
        exact ih
      · simp only [Bool.not_eq_true] at h
        simp [notifIDs, List.filter, hpq, h] at ih ⊢
        exact ih

theorem dedupBatch_nodup (batch : List Notification) (seen : List String) :
    (notifIDs (dedupBatch seen batch)).Nodup ∧
      ∀ x ∈ notifIDs (dedupBatch seen batch), x ∉ seen := by
  induction batch generalizing seen with
  | nil => simp [dedupBatch, notifIDs]
  | cons n rest ih =>
      by_cases h : n.ID ∈ seen
      · simpa [dedupBatch, h] using ih seen
      · have h' := ih (n.ID :: seen)
        constructor
        · simp only [dedupBatch, if_neg h, notifIDs, List.map_cons, List.nodup_cons]
          refine ⟨fun hmem => ?_, h'.1⟩
          exact (h'.2 n.ID hmem) (List.mem_cons_self _ _)
        · intro x hx
          simp only [dedupBatch, if_neg h, notifIDs, List.map_cons, List.mem_cons] at hx
          rcases hx with rfl | hx
          · exact h
          · intro hxseen
            exact (h'.2 x hx) (List.mem_cons_of_mem _ hxseen)

theorem nodup_three (A B C : List String)
    (hA : A.Nodup) (hB : B.Nodup) (hC : C.Nodup)
    (hAB : ∀ x ∈ A, x ∉ B) (hAC : ∀ x ∈ A, x ∉ C) (hBC : ∀ x ∈ B, x ∉ C) :
    ((A ++ B) ++ C).Nodup := by
  rw [List.nodup_append]
  refine ⟨?_, hC, ?_⟩
  · rw [List.nodup_append]
    exact ⟨hA, hB, fun x hx hx' => hAB x hx hx'⟩
  · intro x hx hx'
    rcases List.mem_append.1 hx with h | h
    · exact hAC x h hx'
    · exact hBC x h hx'

theorem notifIDs_take (l : List Notification) (k : Nat) :
    notifIDs (l.take k) = (notifIDs l).take k := by
  simp [notifIDs]

theorem movedNotifs_ids_mem (state batch : List Notification) (x : String) :
    x ∈ notifIDs (movedNotifs state batch) ↔
      x ∈ notifIDs (dedupBatch [] batch) ∧ x ∈ notifIDs state := by
  unfold movedNotifs
  rw [notifIDs_filter _ _ (fun x => decide (x ∈ notifIDs state)) (fun _ => rfl)]
  simp [List.mem_filter]

theorem freshNotifs_ids_mem (state batch : List Notification) (x : String) :
    x ∈ notifIDs (freshNotifs state batch) ↔
      x ∈ notifIDs (dedupBatch [] batch) ∧ x ∉ notifIDs state := by
  unfold freshNotifs
  rw [notifIDs_filter _ _ (fun x => decide (x ∉ notifIDs state)) (fun _ => rfl)]
  simp [List.mem_filter]

theorem movedNotifs_ids_nodup (state batch : List Notification) :
    (notifIDs (movedNotifs state batch)).Nodup := by
  unfold movedNotifs
  rw [notifIDs_filter _ _ (fun x => decide (x ∈ notifIDs state)) (fun _ => rfl)]
  exact ((dedupBatch_nodup batch []).1).filter _

theorem freshNotifs_ids_nodup (state batch : List Notification) :
    (notifIDs (freshNotifs state batch)).Nodup := by
  unfold freshNotifs
  rw [notifIDs_filter _ _ (fun x => decide (x ∉ notifIDs state)) (fun _ => rfl)]
  exact ((dedupBatch_nodup batch []).1).filter _

theorem addNotifications_preserves (state batch : List Notification)
    (hlen : state.length ≤ 50) (hnd : (notifIDs state).Nodup) :
    (addNotifications state batch).length ≤ 50 ∧
      (notifIDs (addNotifications state batch)).Nodup := by
  unfold addNotifications
  split
  · exact ⟨hlen, hnd⟩
  split
  · exact ⟨hlen, hnd⟩
  refine ⟨List.length_take_le _ _, ?_⟩
  rw [notifIDs_take]
  refine List.Nodup.sublist (List.take_sublist _ _) ?_
  rw [notifIDs_append, notifIDs_append]
  split
  · -- nothing is moved: the stored list is kept unfiltered
    rename_i hEmpty
    refine nodup_three _ _ _ (movedNotifs_ids_nodup _ _) (freshNotifs_ids_nodup _ _)
      hnd ?_ ?_ ?_
    · intro x hx hx'
      exact ((freshNotifs_ids_mem state batch x).1 hx').2
        ((movedNotifs_ids_mem state batch x).1 hx).2
    · intro x hx
      rw [List.isEmpty_iff] at hEmpty
      rw [hEmpty] at hx
      simp [notifIDs] at hx
    · intro x hx
      exact ((freshNotifs_ids_mem state batch x).1 hx).2
  · -- moved entries are filtered out of the stored list
    have hFids : notifIDs (state.filter (fun n =>
        n.ID ∉ notifIDs (movedNotifs state batch))) =
        (notifIDs state).filter (fun x => x ∉ notifIDs (movedNotifs state batch)) :=
      notifIDs_filter _ _ _ (fun _ => rfl)
    rw [hFids]
    have hmemF : ∀ x, x ∈ (notifIDs state).filter
        (fun x => x ∉ notifIDs (movedNotifs state batch)) →
        x ∈ notifIDs state ∧ x ∉ notifIDs (movedNotifs state batch) := by
      intro x hx
      have h := List.mem_filter.1 hx
      exact ⟨h.1, by simpa using h.2⟩
    refine nodup_three _ _ _ (movedNotifs_ids_nodup _ _) (freshNotifs_ids_nodup _ _)
      (hnd.filter _) ?_ ?_ ?_
    · intro x hx hx'
      exact ((freshNotifs_ids_mem state batch x).1 hx').2
        ((movedNotifs_ids_mem state batch x).1 hx).2
    · intro x hx hx'
      exact (hmemF x hx').2 hx
    · intro x hx hx'
      exact ((freshNotifs_ids_mem state batch x).1 hx).2 (hmemF x hx').1

/-- C1: every state of the Notification Store reachable from the empty
store by a sequence of `addNotifications` calls (every intermediate
state being itself such a fold of a prefix of the sequence) holds at
most 50 entries and contains no two notifications with the same
identifier. -/
theorem c1_store_capacity_and_nodup (batches : List (List Notification)) :
    (batches.foldl addNotifications []).length ≤ 50 ∧
      (notifIDs (batches.foldl addNotifications [])).Nodup := by
  suffices h : ∀ s : List Notification, s.length ≤ 50 → (notifIDs s).Nodup →
      (batches.foldl addNotifications s).length ≤ 50 ∧
        (notifIDs (batches.foldl addNotifications s)).Nodup by
    exact h [] (by simp) (by simp [notifIDs])
  induction batches with
  | nil => intro s h1 h2; exact ⟨h1, h2⟩
  | cons b bs ih =>
      intro s h1 h2
      have hp := addNotifications_preserves s b h1 h2
      exact ih _ hp.1 hp.2

theorem dedupBatch_cons (n : Notification) (rest : List Notification) :
    dedupBatch [] (n :: rest) = n :: dedupBatch [n.ID] rest := by
  simp [dedupBatch]

theorem length_filter_mem_split (l : List Notification) (A : List String) :
    (l.filter (fun n => n.ID ∈ A)).length + (l.filter (fun n => n.ID ∉ A)).length
      = l.length := by
  induction l with
  | nil => rfl
  | cons n rest ih =>
      by_cases h : n.ID ∈ A
      · simp only [List.filter, h, decide_True, decide_not, Bool.not_true,
          List.length_cons]
        simp only [List.filter, h, decide_True, decide_not, Bool.not_true] at ih ⊢
        omega
      · simp only [List.filter, h, decide_False, decide_not, Bool.not_false,
          List.length_cons]
        simp only [List.filter, h, decide_False, decide_not, Bool.not_false] at ih ⊢
        omega

theorem filter_ne_length (state : List Notification) (x : String)
    (hnd : (notifIDs state).Nodup) (hmem : x ∈ notifIDs state) :
    (state.filter (fun m => m.ID ≠ x)).length + 1 = state.length := by
  induction state with
  | nil => simp [notifIDs] at hmem
  | cons m rest ih =>
      simp only [notifIDs, List.map_cons, List.nodup_cons, List.mem_cons] at hnd hmem
      by_cases h : m.ID = x
      · have hrest : rest.filter (fun m => m.ID ≠ x) = rest := by
          rw [List.filter_eq_self]
          intro a ha
          have hax : a.ID ≠ x := by
            intro hax
            have hmm : x ∈ List.map Notification.ID rest :=
              hax ▸ List.mem_map_of_mem Notification.ID ha
            exact hnd.1 (h.symm ▸ hmm)
          simp [hax]
        rw [List.filter_cons_of_neg (by simp [h]), hrest]
        simp
      · rcases hmem with hx | hx
        · exact absurd hx.symm h
        · have hih := ih hnd.2 hx
          rw [List.filter_cons_of_pos (by simp [h])]
          simp only [List.length_cons]
          omega

theorem dedupBatch_split_nonempty (state batch : List Notification)
    (hb : ¬batch.isEmpty) :
    ¬((movedNotifs state batch).isEmpty && (freshNotifs state batch).isEmpty) := by
  intro hcontra
  rw [Bool.and_eq_true, List.isEmpty_iff, List.isEmpty_iff] at hcontra
  have hlen := length_filter_mem_split (dedupBatch [] batch) (notifIDs state)
  rw [show (dedupBatch [] batch).filter (fun n => n.ID ∈ notifIDs state)
        = movedNotifs state batch from rfl,
      show (dedupBatch [] batch).filter (fun n => n.ID ∉ notifIDs state)
        = freshNotifs state batch from rfl,
      hcontra.1, hcontra.2] at hlen
  cases batch with
  | nil => exact hb rfl
  | cons n rest =>
      rw [dedupBatch_cons] at hlen
      simp at hlen

/-- C2 counterexample: with the store holding `notifA` and the batch
`[notifB, notifA]` (a new entry first, then a re-added one), the code
inserts the moved entry before the new one, `[notifA, notifB]`, while
insertion "preserving the batch's order" would give `[notifB, notifA]`. -/
theorem c2_batch_order_counterexample :
    addNotifications [notifA] [notifB, notifA] = [notifA, notifB] ∧
      addNotificationsSpecC2 [notifA] [notifB, notifA] = [notifB, notifA] ∧
      ([notifA, notifB] : List Notification) ≠ [notifB, notifA] := by
  refine ⟨by decide, by decide, by decide⟩

/-- C2 amended: on every `addNotifications` call, batch entries whose
identifier is already stored are removed from their current position;
the moved entries (in batch order) followed by the newly-added entries
(in batch order) — not the interleaved batch order — are inserted at the
front, and the list is truncated to 50.  In particular re-adding an
already-present identifier moves it to the front without changing the
store's size. -/
theorem c2_insertion_amended (state batch : List Notification) (n : Notification) :
    (addNotifications state batch =
      if batch.isEmpty then state
      else ((movedNotifs state batch ++ freshNotifs state batch) ++
        state.filter (fun m => m.ID ∉ notifIDs (movedNotifs state batch))).take 50) ∧
    (n.ID ∈ notifIDs state → (notifIDs state).Nodup → state.length ≤ 50 →
      addNotifications state [n] = n :: state.filter (fun m => m.ID ≠ n.ID) ∧
        (addNotifications state [n]).length = state.length) := by
  constructor
  · by_cases hb : batch.isEmpty
    · simp [addNotifications, hb]
    · rw [addNotifications, if_neg hb, if_neg hb,
        if_neg (dedupBatch_split_nonempty state batch hb)]
      by_cases hmv : (movedNotifs state batch).isEmpty
      · rw [if_pos hmv]
        rw [List.isEmpty_iff] at hmv
        have : state.filter (fun m => m.ID ∉ notifIDs (movedNotifs state batch))
            = state := by
          rw [List.filter_eq_self]
          intro a _
          simp [hmv, notifIDs]
        rw [this]
      · rw [if_neg hmv]
  · intro hmem hnd hlen
    have hdd : dedupBatch [] [n] = [n] := by simp [dedupBatch]
    have hmv : movedNotifs state [n] = [n] := by
      unfold movedNotifs
      rw [hdd]
      simp [List.filter, hmem]
    have hfr : freshNotifs state [n] = [] := by
      unfold freshNotifs
      rw [hdd]
      simp [List.filter, hmem]
    have hfeq : state.filter (fun m => m.ID ∉ notifIDs (movedNotifs state [n]))
        = state.filter (fun m => m.ID ≠ n.ID) := by
      rw [hmv]
      apply List.filter_congr
      intro m _
      simp [notifIDs]
    rw [addNotifications]
    rw [if_neg (by simp), if_neg (dedupBatch_split_nonempty state [n] (by simp)),
      if_neg (by rw [hmv]; simp)]
    rw [hfeq, hmv, hfr]
    have hflen := filter_ne_length state n.ID hnd hmem
    have hlen' : (n :: state.filter (fun m => m.ID ≠ n.ID)).length ≤ 50 := by
      simp only [List.length_cons]
      omega
    rw [show ([n] ++ [] : List Notification) ++ state.filter (fun m => m.ID ≠ n.ID)
        = n :: state.filter (fun m => m.ID ≠ n.ID) by simp]
    rw [List.take_of_length_le hlen']
    refine ⟨rfl, ?_⟩
    simp only [List.length_cons]
    omega

/-- Witness for `c2_insertion_amended` at a concrete store and batch. -/
theorem c2_insertion_amended_witness :
    addNotifications [notifA, notifB] [notifA]
        = notifA :: [notifA, notifB].filter (fun m => m.ID ≠ notifA.ID) ∧
      (addNotifications [notifA, notifB] [notifA]).length = 2 := by
  have h := (c2_insertion_amended [notifA, notifB] [notifA] notifA).2
    (by decide) (by decide) (by decide)
  exact ⟨h.1, by rw [h.2]; rfl⟩

theorem notify_state_sub (push : Notification → Bool) (s : List String)
    (n : Notification) (x : String) (hx : x ∈ (notify push s n).state) :
    x ∈ s ∨ x = n.ID := by
  unfold notify at hx
  split at hx
  · exact Or.inl hx
  split at hx
  · rcases List.mem_cons.1 hx with h | h
    · exact Or.inr h
    · exact Or.inl h
  · exact Or.inl hx

theorem notifyBatch_state_sub (push : Notification → Bool) (batch : List Notification)
    (s : List String) (x : String) (hx : x ∈ (notifyBatch push s batch).1) :
    x ∈ s ∨ x ∈ notifIDs batch := by
  induction batch generalizing s with
  | nil => exact Or.inl hx
  | cons n rest ih =>
      simp only [notifyBatch] at hx
      rcases ih _ hx with h | h
      · rcases notify_state_sub push s n x h with h' | h'
        · exact Or.inl h'
        · exact Or.inr (by simp [notifIDs, h'])
      · refine Or.inr ?_
        simp only [notifIDs, List.map_cons, List.mem_cons]
        right
        simpa [notifIDs] using h

/-- C3: the delivery dedup guard.  (a) If the sink succeeds on a fresh
identifier, delivering the same notification again invokes the sink
exactly once across both calls.  (b) If the sink fails on a fresh
identifier, the identifier is not recorded, the call reports failure,
and a later delivery of the same notification invokes the sink again.
(c) In a batch, an entry whose identifier is fresh and not shared with
an earlier batch entry gets its sink invocation regardless of sink
failures elsewhere in the batch. -/
theorem c3_delivery_dedup_guard (push : Notification → Bool) (s : List String)
    (n : Notification) (pre post : List Notification) :
    (n.ID ∉ s → push n = true →
      (notify push s n).calls ++ (notify push (notify push s n).state n).calls
        = [n.ID]) ∧
    (n.ID ∉ s → push n = false →
      (notify push s n).state = s ∧ (notify push s n).ok = false ∧
        (notify push (notify push s n).state n).calls = [n.ID]) ∧
    (n.ID ∉ s → n.ID ∉ notifIDs pre →
      n.ID ∈ (notifyBatch push s (pre ++ n :: post)).2) := by
  refine ⟨?_, ?_, ?_⟩
  · intro hfresh hok
    simp [notify, hfresh, hok]
  · intro hfresh hfail
    simp [notify, hfresh, hfail]
  · intro hfresh hpre
    induction pre generalizing s with
    | nil =>
        simp only [List.nil_append, notifyBatch]
        have : (notify push s n).calls = [n.ID] := by
          unfold notify
          rw [if_neg hfresh]
          split <;> rfl
        rw [this]
        simp
    | cons p rest ih =>
        simp only [notifIDs, List.map_cons, List.mem_cons] at hpre
        push_neg at hpre
        simp only [List.cons_append, notifyBatch, List.mem_append]
        refine Or.inr ?_
        have hfresh' : n.ID ∉ (notify push s p).state := by
          intro hmem
          rcases notify_state_sub push s p n.ID hmem with h | h
          · exact hfresh h
          · exact hpre.1 h
        exact ih _ hfresh' (by simpa [notifIDs] using hpre.2)

/-- Witness for `c3_delivery_dedup_guard`: a succeeding sink on a fresh
identifier (`notifA`), a failing sink on the same fresh identifier, and
a batch where the failing first entry does not block the second. -/
theorem c3_delivery_dedup_guard_witness :
    ((notify (fun _ => true) [] notifA).calls
        ++ (notify (fun _ => true) (notify (fun _ => true) [] notifA).state notifA).calls
      = [notifA.ID]) ∧
    ((notify (fun _ => false) [] notifA).state = [] ∧
      (notify (fun _ => false) [] notifA).ok = false ∧
      (notify (fun _ => false) (notify (fun _ => false) [] notifA).state notifA).calls
        = [notifA.ID]) ∧
    notifA.ID ∈ (notifyBatch (fun _ => false) [] ([notifB] ++ notifA :: [])).2 := by
  refine ⟨?_, ?_, ?_⟩
  · exact (c3_delivery_dedup_guard (fun _ => true) [] notifA [] []).1
      (by decide) rfl
  · exact (c3_delivery_dedup_guard (fun _ => false) [] notifA [] []).2.1
      (by decide) rfl
  · exact (c3_delivery_dedup_guard (fun _ => false) [] notifA [notifB] []).2.2
      (by decide) (by decide)

/-- C4 counterexample: on a 200 response with a parseable
`Last-Modified` header but a malformed body, `FetchNotificationsSince`
returns a decode error *and* has advanced the cursor from 100 to 200,
contradicting "the cursor is never advanced when the operation returns
an error". -/
theorem c4_cursor_error_counterexample :
    (fetchNotificationsSince "tok" (some 100) (some ghRespDecodeErr)
        (fun _ _ => "")).cursor = some 200 ∧
      (fetchNotificationsSince "tok" (some 100) (some ghRespDecodeErr)
        (fun _ _ => "")).result = .error .decode ∧
      (some 200 : Option Int) ≠ some 100 := by
  exact ⟨rfl, rfl, by decide⟩

/-- C4 amended: (1) a 304 response carrying `Last-Modified` `t2` yields
an empty batch and cursor `t2` (for any prior cursor, in particular a
smaller one); (2) the cursor is unchanged on input errors (empty
token), transport errors, body-read errors and non-200/304 statuses;
(3) on a 200 response carrying `Last-Modified` `t2` the cursor becomes
`t2` even when body decoding subsequently fails and the operation
returns an error — the sole deviation from the original claim. -/
theorem c4_cursor_amended (token : String) (t1 : Option Int) (t2 : Int)
    (resp : GhResp) (rl : String → String → String) :
    (token ≠ "" → resp.status = 304 → resp.lastModified = some t2 →
      (fetchNotificationsSince token t1 (some resp) rl).cursor = some t2 ∧
        (fetchNotificationsSince token t1 (some resp) rl).result = .ok []) ∧
    (token = "" →
      (fetchNotificationsSince token t1 (some resp) rl).cursor = t1 ∧
        (fetchNotificationsSince token t1 (some resp) rl).result = .error .noToken) ∧
    (token ≠ "" →
      (fetchNotificationsSince token t1 none rl).cursor = t1 ∧
        (fetchNotificationsSince token t1 none rl).result = .error .transport) ∧
    (token ≠ "" → resp.status ≠ 304 → resp.bodyReadOk = false →
      (fetchNotificationsSince token t1 (some resp) rl).cursor = t1 ∧
        (fetchNotificationsSince token t1 (some resp) rl).result = .error .bodyRead) ∧
    (token ≠ "" → resp.status ≠ 304 → resp.status ≠ 200 → resp.bodyReadOk = true →
      (fetchNotificationsSince token t1 (some resp) rl).cursor = t1 ∧
        (fetchNotificationsSince token t1 (some resp) rl).result
          = .error (.badStatus resp.status)) ∧
    (token ≠ "" → resp.status = 200 → resp.bodyReadOk = true →
      resp.lastModified = some t2 →
      (fetchNotificationsSince token t1 (some resp) rl).cursor = some t2) := by
  refine ⟨?_, ?_, ?_, ?_, ?_, ?_⟩
  · intro htok h304 hlm
    simp [fetchNotificationsSince, htok, h304, hlm]
  · intro htok
    simp [fetchNotificationsSince, htok]
  · intro htok
    simp [fetchNotificationsSince, htok]
  · intro htok h304 hread
    simp [fetchNotificationsSince, htok, h304, hread]
  · intro htok h304 h200 hread
    simp [fetchNotificationsSince, htok, h304, h200, hread]
  · intro htok h200 hread hlm
    have h304 : resp.status ≠ 304 := by omega
    rcases hitems : resp.items with _ | items
    · simp [fetchNotificationsSince, htok, h304, h200, hread, hlm, hitems]
    · simp [fetchNotificationsSince, htok, h304, h200, hread, hlm, hitems]

/-- Witness for `c4_cursor_amended`: a 304 carrying `Last-Modified` 200
against a prior cursor of 100 advances the cursor and returns an empty
batch, and the decode-error 200 response advances the cursor too. -/
theorem c4_cursor_amended_witness :
    ((fetchNotificationsSince "tok" (some 100) (some ⟨304, some 200, true, none⟩)
        (fun _ _ => "")).cursor = some 200 ∧
      (fetchNotificationsSince "tok" (some 100) (some ⟨304, some 200, true, none⟩)
        (fun _ _ => "")).result = .ok []) ∧
    (fetchNotificationsSince "tok" (some 100) (some ghRespDecodeErr)
        (fun _ _ => "")).cursor = some 200 := by
  refine ⟨?_, ?_⟩
  · exact (c4_cursor_amended "tok" (some 100) 200 ⟨304, some 200, true, none⟩
      (fun _ _ => "")).1 (by decide) rfl rfl
  · exact (c4_cursor_amended "tok" (some 100) 200 ghRespDecodeErr
      (fun _ _ => "")).2.2.2.2.2 (by decide) rfl rfl rfl

theorem ofDecDigits_append_digit (l : List Nat) (d : Nat) :
    ofDecDigits (l ++ [d]) = ofDecDigits l * 10 + d := by
  simp [ofDecDigits, List.foldl_append]

theorem ofDecDigits_toDecDigitsAux (fuel n : Nat) (h : n < fuel) :
    ofDecDigits (toDecDigitsAux fuel n) = n := by
  induction fuel generalizing n with
  | zero => omega
  | succ fuel ih =>
      by_cases h10 : n < 10
      · simp [toDecDigitsAux, h10, ofDecDigits]
      · have hdiv : n / 10 < fuel := by
          have : n / 10 < n := Nat.div_lt_self (by omega) (by omega)
          omega
        rw [toDecDigitsAux, if_neg h10, ofDecDigits_append_digit, ih _ hdiv]
        omega

theorem toDecDigitsAux_lt_ten (fuel n : Nat) (d : Nat)
    (hd : d ∈ toDecDigitsAux fuel n) : d < 10 := by
  induction fuel generalizing n with
  | zero => simp [toDecDigitsAux] at hd
  | succ fuel ih =>
      by_cases h10 : n < 10
      · rw [toDecDigitsAux, if_pos h10] at hd
        simp at hd
        omega
      · rw [toDecDigitsAux, if_neg h10] at hd
        rcases List.mem_append.1 hd with h | h
        · exact ih _ h
        · simp at h
          omega

theorem digitChar_inj_lt :
    ∀ a < 10, ∀ b < 10, Nat.digitChar a = Nat.digitChar b → a = b := by
  decide

theorem map_digitChar_inj (l₁ l₂ : List Nat)
    (h₁ : ∀ d ∈ l₁, d < 10) (h₂ : ∀ d ∈ l₂, d < 10)
    (h : l₁.map Nat.digitChar = l₂.map Nat.digitChar) : l₁ = l₂ := by
  induction l₁ generalizing l₂ with
  | nil => cases l₂ <;> simp_all
  | cons a rest ih =>
      cases l₂ with
      | nil => simp at h
      | cons b rest₂ =>
          simp only [List.map_cons, List.cons.injEq] at h
          have ha : a = b := digitChar_inj_lt a (h₁ a (by simp)) b (h₂ b (by simp)) h.1
          have hrest : rest = rest₂ :=
            ih rest₂ (fun d hd => h₁ d (by simp [hd]))
              (fun d hd => h₂ d (by simp [hd])) h.2
          rw [ha, hrest]

theorem natDecimal_inj (m n : Nat) (h : natDecimal m = natDecimal n) : m = n := by
  unfold natDecimal at h
  have hdata := congrArg String.data h
  simp only [String.data] at hdata
  have hdig := map_digitChar_inj _ _
    (fun d hd => toDecDigitsAux_lt_ten _ _ d hd)
    (fun d hd => toDecDigitsAux_lt_ten _ _ d hd) hdata
  have hm := ofDecDigits_toDecDigitsAux (m + 1) m (by omega)
  have hn := ofDecDigits_toDecDigitsAux (n + 1) n (by omega)
  rw [← hm, ← hn]
  unfold toDecDigits at hdig
  rw [hdig]

theorem string_append_left_cancel (s t u : String) (h : s ++ t = s ++ u) : t = u := by
  apply String.ext
  have hd := congrArg String.data h
  rw [String.data_append, String.data_append] at hd
  exact List.append_cancel_left hd

theorem intDecimal_inj_pos (a b : Int) (ha : 0 < a) (hb : 0 < b)
    (h : intDecimal a = intDecimal b) : a = b := by
  unfold intDecimal at h
  rw [if_neg (by omega), if_neg (by omega)] at h
  have := natDecimal_inj _ _ h
  omega

theorem lookupAS_isSome_iff (m : SeenArticles) (k : String) :
    (lookupAS m k).isSome = true ↔ k ∈ m.map Prod.fst := by
  induction m with
  | nil => simp [lookupAS]
  | cons p rest ih =>
      obtain ⟨k', v⟩ := p
      by_cases h : k' = k
      · simp [lookupAS, h]
      · simp only [lookupAS, if_neg h, List.map_cons, List.mem_cons]
        rw [ih]
        constructor
        · exact Or.inr
        · rintro (rfl | hmem)
          · exact absurd rfl h
          · exact hmem

theorem mem_keys_insertAS (m : SeenArticles) (k : String) (v : ArticleState)
    (x : String) :
    x ∈ (insertAS m k v).map Prod.fst ↔ x = k ∨ x ∈ m.map Prod.fst := by
  induction m with
  | nil => simp [insertAS]
  | cons p rest ih =>
      obtain ⟨k', v'⟩ := p
      by_cases h : k' = k
      · subst h
        simp [insertAS]
      · simp only [insertAS, if_neg h, List.map_cons, List.mem_cons]
        rw [ih]
        tauto

theorem mem_keys_foldl {α : Type} (l : List α) (f : SeenArticles → α → SeenArticles)
    (hf : ∀ m a x, x ∈ m.map Prod.fst → x ∈ (f m a).map Prod.fst)
    (m : SeenArticles) (x : String) (hx : x ∈ m.map Prod.fst) :
    x ∈ (l.foldl f m).map Prod.fst := by
  induction l generalizing m with
  | nil => exact hx
  | cons a rest ih => exact ih (f m a) (hf m a x hx)

theorem mem_keys_foldl_pairs (u m : SeenArticles) (x : String)
    (hx : x ∈ u.map Prod.fst) :
    x ∈ (u.foldl (fun m p => insertAS m p.1 p.2) m).map Prod.fst := by
  induction u generalizing m with
  | nil => simp at hx
  | cons p rest ih =>
      simp only [List.map_cons, List.mem_cons] at hx
      simp only [List.foldl_cons]
      rcases hx with rfl | hx
      · refine mem_keys_foldl rest _ ?_ _ _ ?_
        · intro m' q y hy
          exact (mem_keys_insertAS m' q.1 q.2 y).2 (Or.inr hy)
        · exact (mem_keys_insertAS m p.1 p.2 p.1).2 (Or.inl rfl)
      · exact ih _ hx

theorem mem_keys_fold_articles (u : SeenArticles) (l : List Ld246Article) :
    ∀ m : SeenArticles,
      (∀ a ∈ l, (lookupAS u a.oId).isSome = true → a.oId ∈ m.map Prod.fst) →
      ∀ a ∈ l, a.oId ∈ (l.foldl
        (fun m a =>
          if (lookupAS u a.oId).isSome then m
          else insertAS m a.oId (mkArticleState a)) m).map Prod.fst := by
  induction l with
  | nil => intro m _ a ha; cases ha
  | cons b rest ih =>
      intro m hpre a ha
      have hstep : ∀ (m' : SeenArticles) (c : Ld246Article) (y : String),
          y ∈ m'.map Prod.fst →
          y ∈ ((fun m a =>
            if (lookupAS u a.oId).isSome then m
            else insertAS m a.oId (mkArticleState a)) m' c).map Prod.fst := by
        intro m' c y hy
        by_cases hg : (lookupAS u c.oId).isSome
        · simpa [hg] using hy
        · simp only [hg, Bool.false_eq_true, if_false]
          exact (mem_keys_insertAS m' c.oId (mkArticleState c) y).2 (Or.inr hy)
      simp only [List.foldl_cons]
      rcases List.mem_cons.1 ha with rfl | ha
      · by_cases hg : (lookupAS u a.oId).isSome
        · have h1 : a.oId ∈ m.map Prod.fst := hpre a (List.mem_cons_self _ _) hg
          exact mem_keys_foldl rest _ hstep _ _ (hstep m a a.oId h1)
        · refine mem_keys_foldl rest _ hstep _ _ ?_
          simp only [hg, Bool.false_eq_true, if_false]
          exact (mem_keys_insertAS m a.oId (mkArticleState a) a.oId).2 (Or.inl rfl)
      · exact ih _ (fun c hc hg =>
          hstep m b c.oId (hpre c (List.mem_cons_of_mem _ hc) hg)) a ha

/-- C8: after every successful recent-activity fetch, the rewritten
seen-state has an entry exactly for the identifiers of the articles in
the current remote listing: every listed article has an entry, and every
previously tracked identifier absent from the listing is purged. -/
theorem c8_state_matches_listing (seen : SeenArticles)
    (articles : List Ld246Article) (x : String) :
    x ∈ ((fetchRecentRepliesCore seen articles).2.map Prod.fst) ↔
      x ∈ articles.map Ld246Article.oId := by
  show x ∈ ((reconcileSeen seen articles).map Prod.fst) ↔ _
  unfold reconcileSeen
  constructor
  · intro hx
    simp only [List.mem_map] at hx
    obtain ⟨q, hq, rfl⟩ := hx
    have := List.mem_filter.1 hq
    simpa using this.2
  · intro hx
    have hmem : ∀ a ∈ articles, a.oId ∈
        (articles.foldl
          (fun m a =>
            if (lookupAS (updatedArticlesMap seen articles) a.oId).isSome then m
            else insertAS m a.oId (mkArticleState a))
          ((updatedArticlesMap seen articles).foldl
            (fun m p => insertAS m p.1 p.2) seen)).map Prod.fst := by
      refine mem_keys_fold_articles _ _ _ ?_
      intro a _ hg
      exact mem_keys_foldl_pairs _ _ _ ((lookupAS_isSome_iff _ _).1 hg)
    simp only [List.mem_map] at hx
    obtain ⟨a, ha, rfl⟩ := hx
    have h1 := hmem a ha
    simp only [List.mem_map] at h1
    obtain ⟨q, hq, hqx⟩ := h1
    refine List.mem_map.2 ⟨q, List.mem_filter.2 ⟨hq, ?_⟩, hqx⟩
    simp only [hqx]
    simp only [decide_eq_true_eq]
    exact List.mem_map.2 ⟨a, ha, rfl⟩

/-- C6 failing input, evaluated on the code: starting from a state
tracking `X` at (time 100, 1 comment), a fetch showing (100, 2) emits
an "updated" notification with identifier `ld246_article_X_100`; the
next fetch showing (100, 3) — one more reply, unchanged update time —
is again detected as updated but emits the *same* identifier
`ld246_article_X_100`, not a distinct one as the claim (and the
source's own comment, ld246.go lines 1025-1029) requires.  The
identifier does differ from the original "new" identifier
`ld246_article_X`. -/
theorem c6_updated_id_collision :
    notifIDs (fetchRecentRepliesCore seenX0 [articleX1]).1
        = ["ld246_article_X_100"] ∧
      notifIDs (fetchRecentRepliesCore
          (fetchRecentRepliesCore seenX0 [articleX1]).2 [articleX2]).1
        = ["ld246_article_X_100"] ∧
      articleHasNewReply seenX0 articleX1 = true ∧
      articleHasNewReply (fetchRecentRepliesCore seenX0 [articleX1]).2 articleX2
        = true ∧
      ("ld246_article_X_100" : String) ≠ "ld246_article_X" := by
  refine ⟨by decide, by decide, by decide, by decide, by decide⟩

/-- C5 counterexample: with an empty token, both community-site
sub-operations still issue their first network request (the claim says
no request is attempted), and the result is the error of that attempted
request — a transport error here — not an input error. -/
theorem c5_token_gate_counterexample :
    (fetchUnreadMessages "" [] ldNetDown).1 = [ld246UnreadCountURL] ∧
      (fetchUnreadMessages "" [] ldNetDown).1 ≠ [] ∧
      (fetchUnreadMessages "" [] ldNetDown).2 = .error .transport ∧
      (fetchRecentReplies "" [] .transport).1 = [ld246LatestReplyURL] ∧
      (fetchRecentReplies "" [] (.transport : ApiResp (List Ld246Article))).1 ≠ [] := by
  refine ⟨rfl, by decide, rfl, rfl, by decide⟩

theorem processCategory_head (net : Ld246UnreadNet) (typ : String) (cnt : Int)
    (acc : List String × List Notification × List String) (u : String)
    (h : acc.1.head? = some u) :
    (processCategory net typ cnt acc).1.head? = some u := by
  unfold processCategory
  split
  · split <;> simp [List.head?_append, h]
  · exact h

/-- C5 amended: only the issue-tracker monitor fails fast on a missing
token — an empty GitHub token yields an immediate input error with no
request issued; the two community-site sub-operations issue their first
network request regardless of the token (an empty token merely omits
the `Authorization` header). -/
theorem c5_token_gate_amended (cursor : Option Int) (net' : Option GhResp)
    (rl : String → String → String) (token : String) (seenA : SeenArticles)
    (seenM : List String) (aresp : ApiResp (List Ld246Article))
    (net : Ld246UnreadNet) :
    (fetchNotificationsSince "" cursor net' rl).requests = [] ∧
      (fetchNotificationsSince "" cursor net' rl).result = .error .noToken ∧
      (fetchRecentReplies token seenA aresp).1 = [ld246LatestReplyURL] ∧
      (fetchUnreadMessages token seenM net).1.head? = some ld246UnreadCountURL := by
  refine ⟨by simp [fetchNotificationsSince], by simp [fetchNotificationsSince], ?_, ?_⟩
  · unfold fetchRecentReplies
    rcases aresp with _ | c | _ | _ | ⟨code, msg, articles⟩
    · rfl
    · rfl
    · rfl
    · rfl
    · by_cases hc : code ≠ 0
      · simp [hc]
      · simp [hc]
  · unfold fetchUnreadMessages
    rcases hnet : net.countResp with _ | c | _ | _ | ⟨code, msg, data⟩
    · rfl
    · rfl
    · rfl
    · rfl
    · by_cases hc : code ≠ 0
      · simp [hc]
      · simp only [hc, if_false, ite_not]
        by_cases hz : data.unreadNotificationCnt = 0
        · simp [hz]
        · simp only [hz, if_false]
          refine processCategory_head _ _ _ _ _
            (processCategory_head _ _ _ _ _
              (processCategory_head _ _ _ _ _
                (processCategory_head _ _ _ _ _ rfl)))

/-- C7: (1) when the aggregate unread count is nonzero, the four detail
categories have no positive count and the chat count is positive, the
fetch returns exactly one notification — the synthetic chat one, whose
identifier embeds the count; (2) the identifier depends on the count
only, so a repeated count yields the same identifier; (3) delivering
that identifier on two consecutive fetches invokes the sink once in
total; (4) distinct positive counts yield distinct identifiers, so a
changed count produces a second, fresh notification. -/
theorem c7_chat_synthetic (token : String) (seen : List String)
    (net : Ld246UnreadNet) (msg : String) (data : Ld246CountData)
    (c c' nowA nowB : Int) (push : Notification → Bool) (s : List String) :
    (net.countResp = ApiResp.ok 0 msg data →
      data.unreadNotificationCnt ≠ 0 →
      data.unreadCommentedNotificationCnt ≤ 0 →
      data.unreadAtNotificationCnt ≤ 0 →
      data.unreadReplyNotificationCnt ≤ 0 →
      data.unreadFollowingNotificationCnt ≤ 0 →
      0 < data.unreadChatNotificationCnt →
      (fetchUnreadMessages token seen net).2 =
        .ok ([chatNotificationOf data.unreadChatNotificationCnt net.nowMilli], seen)) ∧
    (chatNotificationOf c nowA).ID = (chatNotificationOf c nowB).ID ∧
    (push (chatNotificationOf c nowA) = true →
      (chatNotificationOf c nowA).ID ∉ s →
      (notify push s (chatNotificationOf c nowA)).calls
          ++ (notify push (notify push s (chatNotificationOf c nowA)).state
                (chatNotificationOf c nowB)).calls
        = [(chatNotificationOf c nowA).ID]) ∧
    (0 < c → 0 < c' → c ≠ c' →
      (chatNotificationOf c nowA).ID ≠ (chatNotificationOf c' nowB).ID) := by
  refine ⟨?_, rfl, ?_, ?_⟩
  · intro hc htotal h1 h2 h3 h4 hchat
    unfold fetchUnreadMessages
    rw [hc]
    simp only [ite_not, if_true]
    rw [if_neg htotal]
    rw [show processCategory net "commented" data.unreadCommentedNotificationCnt
        ([ld246UnreadCountURL], ([] : List Notification), seen)
        = ([ld246UnreadCountURL], ([] : List Notification), seen) by
      unfold processCategory; rw [if_neg (by omega)]]
    rw [show processCategory net "at" data.unreadAtNotificationCnt
        ([ld246UnreadCountURL], ([] : List Notification), seen)
        = ([ld246UnreadCountURL], ([] : List Notification), seen) by
      unfold processCategory; rw [if_neg (by omega)]]
    rw [show processCategory net "reply" data.unreadReplyNotificationCnt
        ([ld246UnreadCountURL], ([] : List Notification), seen)
        = ([ld246UnreadCountURL], ([] : List Notification), seen) by
      unfold processCategory; rw [if_neg (by omega)]]
    rw [show processCategory net "following" data.unreadFollowingNotificationCnt
        ([ld246UnreadCountURL], ([] : List Notification), seen)
        = ([ld246UnreadCountURL], ([] : List Notification), seen) by
      unfold processCategory; rw [if_neg (by omega)]]
    rw [if_pos hchat]
    simp
  · intro hpush hfresh
    have hstep1 : notify push s (chatNotificationOf c nowA)
        = ⟨(chatNotificationOf c nowA).ID :: s, [(chatNotificationOf c nowA).ID], true⟩ := by
      unfold notify
      rw [if_neg hfresh, if_pos hpush]
    rw [hstep1]
    have hstep2 : notify push ((chatNotificationOf c nowA).ID :: s)
        (chatNotificationOf c nowB)
        = ⟨(chatNotificationOf c nowA).ID :: s, [], true⟩ := by
      unfold notify
      rw [if_pos (by simp [chatNotificationOf])]
    rw [hstep2]
    simp
  · intro hc hc' hne heq
    simp only [chatNotificationOf] at heq
    exact hne (intDecimal_inj_pos c c' hc hc' (string_append_left_cancel _ _ _ heq))

/-- Witness for `c7_chat_synthetic`: unread counts 5 then 5 again give
one delivered notification in total, and counts 5 and 8 give different
identifiers. -/
theorem c7_chat_synthetic_witness :
    (fetchUnreadMessages "t" [] ⟨ApiResp.ok 0 "" ⟨5, 0, 0, 0, 5, 0⟩, fun _ => .transport, 1⟩).2
        = .ok ([chatNotificationOf 5 1], []) ∧
      (notify (fun _ => true) [] (chatNotificationOf 5 1)).calls
          ++ (notify (fun _ => true)
                (notify (fun _ => true) [] (chatNotificationOf 5 1)).state
                (chatNotificationOf 5 2)).calls
        = [(chatNotificationOf 5 1).ID] ∧
      (chatNotificationOf 5 1).ID ≠ (chatNotificationOf 8 2).ID := by
  refine ⟨?_, ?_, ?_⟩
  · exact (c7_chat_synthetic "t" []
      ⟨ApiResp.ok 0 "" ⟨5, 0, 0, 0, 5, 0⟩, fun _ => .transport, 1⟩ ""
      ⟨5, 0, 0, 0, 5, 0⟩ 5 8 1 2 (fun _ => true) []).1
      rfl (by decide) (by decide) (by decide) (by decide) (by decide) (by decide)
  · exact (c7_chat_synthetic "t" []
      ⟨ApiResp.ok 0 "" ⟨5, 0, 0, 0, 5, 0⟩, fun _ => .transport, 1⟩ ""
      ⟨5, 0, 0, 0, 5, 0⟩ 5 8 1 2 (fun _ => true) []).2.2.1
      rfl (by decide)
  · exact (c7_chat_synthetic "t" []
      ⟨ApiResp.ok 0 "" ⟨5, 0, 0, 0, 5, 0⟩, fun _ => .transport, 1⟩ ""
      ⟨5, 0, 0, 0, 5, 0⟩ 5 8 1 2 (fun _ => true) []).2.2.2
      (by decide) (by decide) (by decide)

theorem decodeNotification_encodeNotification (n : Notification) :
    decodeNotification (encodeNotification n) = some n := by
  simp [decodeNotification, encodeNotification, jGetStr, jGetInt, jLookup]

theorem decodeAll_encode (l : List Notification) :
    decodeAll (l.map encodeNotification) = some l := by
  induction l with
  | nil => rfl
  | cons n rest ih =>
      simp [decodeAll, decodeNotification_encodeNotification, ih]

/-- C9: persist-then-reload round-trip.  A store state (which, per
`c1_store_capacity_and_nodup`, never exceeds 50 entries) reloads to the
identical ordered list, and a persisted file holding more than 50
records loads as exactly its first 50 records in order. -/
theorem loadNotifications_save (m : List Notification) :
    loadNotifications (saveNotificationsWithData m) = some (m.take 50) := by
  simp [loadNotifications, saveNotificationsWithData, decodeNotificationList,
    decodeAll_encode]

theorem c9_save_load_roundtrip (l records : List Notification) :
    loadNotifications (saveNotificationsWithData l) = some (l.take 50) ∧
      (l.length ≤ 50 → loadNotifications (saveNotificationsWithData l) = some l) ∧
      (records.length > 50 →
        loadNotifications (saveNotificationsWithData records)
          = some (records.take 50)) := by
  refine ⟨loadNotifications_save l, fun hle => ?_, fun _ => loadNotifications_save records⟩
  rw [loadNotifications_save l, List.take_of_length_le hle]

/-- Witness for `c9_save_load_roundtrip`: a two-record store reloads
identically; a 51-record file loads as its first 50 records. -/
theorem c9_save_load_roundtrip_witness :
    loadNotifications (saveNotificationsWithData [notifA, notifB])
        = some [notifA, notifB] ∧
      loadNotifications (saveNotificationsWithData (List.replicate 51 notifA))
        = some ((List.replicate 51 notifA).take 50) := by
  constructor
  · exact (c9_save_load_roundtrip [notifA, notifB] []).2.1 (by decide)
  · exact (c9_save_load_roundtrip [] (List.replicate 51 notifA)).2.2 (by decide)

/-- C10: loading truncates to 50 but does not deduplicate — the loaded
store (as returned by `getRecentNotifications`) is exactly the first 50
decoded records, so a file whose first 50 records repeat an identifier
leaves the store with that duplicate; the no-duplicate invariant is
re-established only by `addNotifications` steps from duplicate-free
states (`c1_store_capacity_and_nodup`). -/
theorem c10_load_no_dedup (records : List Notification) :
    getRecentNotifications
        (loadIntoStore [] (some (saveNotificationsWithData records)))
      = records.take 50 ∧
    (¬ (notifIDs (records.take 50)).Nodup →
      ¬ (notifIDs (getRecentNotifications
          (loadIntoStore [] (some (saveNotificationsWithData records))))).Nodup) := by
  have h1 : loadIntoStore [] (some (saveNotificationsWithData records))
      = records.take 50 := by
    rw [loadIntoStore, loadNotifications_save records]
  refine ⟨h1, fun hdup => ?_⟩
  rw [show getRecentNotifications
      (loadIntoStore [] (some (saveNotificationsWithData records)))
      = records.take 50 from h1]
  exact hdup

/-- Witness for `c10_load_no_dedup`: a file holding the same record
twice loads with both copies present. -/
theorem c10_load_no_dedup_witness :
    getRecentNotifications
        (loadIntoStore [] (some (saveNotificationsWithData [notifA, notifA])))
      = [notifA, notifA] ∧
    ¬ (notifIDs (getRecentNotifications
        (loadIntoStore [] (some (saveNotificationsWithData [notifA, notifA]))))).Nodup := by
  constructor
  · exact (c10_load_no_dedup [notifA, notifA]).1
  · exact (c10_load_no_dedup [notifA, notifA]).2 (by decide)
